import Mathlib

/-!
Verification of the Fuel Friends ledger service (src/main.py) against its
natural-language specification.

The Python source is shallowly embedded: SQLite rows become Lean structures,
the two tables become lists held in a `DB` record, Python `float` arithmetic is
modelled over `ℚ` (with a separate `FloatVal` type for the request-validation
layer, where IEEE non-finite values matter), and Python's `round` (banker's
rounding, round-half-to-even) is `roundHalfEven`/`round2` below.  Each FastAPI
handler becomes a pure function from a `DB` (plus its parameters and the
current timestamp) to `Except Err (DB × view)`; raising `HTTPException` is the
`Except.error` branch, in which case no database mutation has happened.
-/

namespace FuelFriends

/-! ### Data model: the two tables created by `init_db` (src/main.py:58-92) -/

/-- One row of the `friends` table: `id INTEGER PRIMARY KEY AUTOINCREMENT`,
`name TEXT`, `total_liters REAL`, `paid_sek REAL`, `created_at TEXT`.
Timestamps (`now_utc_iso`) are abstracted to naturals that respect
chronological order, which the ISO-8601 strings' lexicographic order does. -/
structure Friend where
  fid : Nat
  name : String
  total_liters : ℚ
  paid_sek : ℚ
  created_at : Nat
deriving Repr, DecidableEq

/-- One row of the `transactions` table: `id INTEGER PRIMARY KEY AUTOINCREMENT`,
`friend_id`, `type TEXT`, `amount REAL`, `description TEXT`, `created_at TEXT`.
The `description` field stores the handler's message template; the interpolated
number formatting of the Python f-strings is elided (no claim concerns it). -/
structure Txn where
  tid : Nat
  friend_id : Nat
  ttype : String
  amount : ℚ
  description : String
  created_at : Nat
deriving Repr, DecidableEq

/-- The database: both tables in rowid (insertion) order, plus the
`AUTOINCREMENT` counters, which are monotone and never reuse ids. -/
structure DB where
  friends : List Friend
  transactions : List Txn
  nextFriendId : Nat
  nextTxnId : Nat
deriving Repr, DecidableEq

def emptyDB : DB := ⟨[], [], 1, 1⟩

/-- The error kinds the handlers raise via `HTTPException` (400/422, 401, 500,
404).  Pydantic body-validation failures (422) and the explicit 400 checks are
both validation errors for the spec's purposes. -/
inductive Err where
  | validation
  | unauthorized
  | misconfigured
  | notFound
deriving Repr, DecidableEq

/-! ### Balance engine (src/main.py:10, 101-108) -/

def PRICE_PER_LITER : ℚ := 10

/-- Python's built-in `round` to an integer: round-half-to-even (banker's
rounding).  Stated on the numerator/denominator so that concrete instances
reduce inside the kernel: with `f = ⌊q⌋` and `r = q - f ∈ [0, 1)`, the
comparisons `r < 1/2` and `r > 1/2` are `2*(q.num % q.den) < q.den` and
`q.den < 2*(q.num % q.den)` (the division and `%` are Euclidean, and
`q.num / q.den = ⌊q⌋`). -/
def roundHalfEven (q : ℚ) : ℤ :=
  if 2 * (q.num % (q.den : ℤ)) < (q.den : ℤ) then q.num / (q.den : ℤ)
  else if (q.den : ℤ) < 2 * (q.num % (q.den : ℤ)) then q.num / (q.den : ℤ) + 1
  else if (q.num / (q.den : ℤ)) % 2 = 0 then q.num / (q.den : ℤ)
  else q.num / (q.den : ℤ) + 1

/-- `round(float(x), 2)` (src/main.py:107-108). -/
def round2 (x : ℚ) : ℚ := (roundHalfEven (x * 100) : ℚ) / 100

/-- `calc_total_sek` (src/main.py:101-102). -/
def calc_total_sek (liters : ℚ) : ℚ := round2 (liters * PRICE_PER_LITER)

/-- Python `str.strip()`: drop whitespace from both ends.  (Structural, so
concrete instances evaluate by `decide`; Lean's `String.trim` computes the
same string but by well-founded recursion on byte positions.) -/
def stripStr (s : String) : String :=
  ⟨((s.data.dropWhile Char.isWhitespace).reverse.dropWhile Char.isWhitespace).reverse⟩

/-- `clean_name` (src/main.py:104-105): Python `str.strip()`. -/
def clean_name (name : String) : String := stripStr name

/-! ### Request-validation layer (pydantic models, src/main.py:120-130)

`AddLitersBody.liters` and `PayBody.amount` are `float = Field(gt=0)`.  FastAPI
parses the JSON body with Python's `json.loads`, which accepts the tokens
`Infinity`, `-Infinity` and `NaN`, so the value reaching the `gt=0` check is a
full IEEE double.  `FloatVal` models that domain: a finite value (as ℚ) or one
of the non-finite specials. -/

inductive FloatVal where
  | finite (q : ℚ)
  | inf
  | neginf
  | nan
deriving Repr, DecidableEq

/-- The pydantic `Field(gt=0)` check, i.e. the IEEE comparison `v > 0`:
`NaN > 0` is false, `-inf > 0` is false, `+inf > 0` is true. -/
def floatGtZero : FloatVal → Bool
  | .finite q => decide (0 < q)
  | .inf => true
  | .neginf => false
  | .nan => false

/-! ### Auth (src/main.py:33-50)

`APP_PASSWORD` is `os.getenv("APP_PASSWORD")`: `none` when unset; Python's
truthiness test `if not APP_PASSWORD` is also true for `some ""`. -/

/-- `require_password` (src/main.py:33-37): returns the error raised, if any.
The header value is compared to the configured secret exactly, no stripping. -/
def require_password (appPassword : Option String) (x_app_password : Option String) :
    Option Err :=
  if appPassword = none ∨ appPassword = some "" then some .misconfigured
  else if x_app_password ≠ appPassword then some .unauthorized
  else none

/-- `login` (src/main.py:39-50): the supplied password is `.strip()`ped before
the comparison (src/main.py:42), unlike `require_password`. -/
def login (appPassword : Option String) (bodyPassword : Option String) :
    Except Err Unit :=
  let password := stripStr (bodyPassword.getD "")
  if appPassword = none ∨ appPassword = some "" then .error .misconfigured
  else if some password ≠ appPassword then .error .unauthorized
  else .ok ()

/-- A protected endpoint (`dependencies=[Depends(require_password)]`): FastAPI
runs `require_password` before the handler, so on an auth error the handler —
and hence any store access — never runs.  The result pairs the store that is
left behind with the handler's outcome. -/
def runProtected {α : Type} (appPassword : Option String) (header : Option String)
    (handler : DB → Except Err (DB × α)) (db : DB) : DB × Except Err α :=
  match require_password appPassword header with
  | some e => (db, .error e)
  | none =>
    match handler db with
    | .error e => (db, .error e)
    | .ok (db', a) => (db', .ok a)

/-! ### Account operations (the FastAPI handlers, src/main.py:157-362) -/

/-- The JSON object returned by the mutating friend handlers. -/
structure FriendView where
  vid : Nat
  name : String
  totalLiters : ℚ
  totalSek : ℚ
  paidSek : ℚ
  remainingSek : ℚ
deriving Repr, DecidableEq

/-- `SELECT ... FROM friends WHERE id = ?` followed by `fetchone()`. -/
def findFriend (db : DB) (id : Nat) : Option Friend :=
  db.friends.find? (fun f => f.fid == id)

/-- `log_transaction` (src/main.py:110-117): INSERT into `transactions`.
(The commit granularity is modelled separately by `DbAction` below.) -/
def log_transaction (db : DB) (friend_id : Nat) (trans_type : String) (amount : ℚ)
    (description : String) (t : Nat) : DB :=
  { db with
      transactions :=
        db.transactions ++ [⟨db.nextTxnId, friend_id, trans_type, amount, description, t⟩],
      nextTxnId := db.nextTxnId + 1 }

/-- `create_friend` (src/main.py:157-177).  The pydantic model `FriendCreate`
rejects a raw name shorter than 2 (`Field(min_length=2)`, a 422) before the
handler's own check of the trimmed name (400); both are validation errors.
The f-string's interpolated name is elided from the description. -/
def create_friend (db : DB) (rawName : String) (t : Nat) : Except Err (DB × FriendView) :=
  if rawName.length < 2 then .error .validation
  else
    let name := clean_name rawName
    if name.length < 2 then .error .validation
    else
      let new_id := db.nextFriendId
      let db1 : DB := { db with friends := db.friends ++ [⟨new_id, name, 0, 0, t⟩],
                                nextFriendId := db.nextFriendId + 1 }
      let db2 := log_transaction db1 new_id "created" 0 "Skapade kontakt" t
      .ok (db2, ⟨new_id, name, 0, 0, 0, 0⟩)

/-- `rename_friend` (src/main.py:179-208): validates the name, 404s on a
missing row, then `UPDATE friends SET name = ? WHERE id = ?` — no other column
is touched and nothing is logged.  The view echoes the row read before the
update. -/
def rename_friend (db : DB) (id : Nat) (rawName : String) : Except Err (DB × FriendView) :=
  if rawName.length < 2 then .error .validation
  else
    let name := clean_name rawName
    if name.length < 2 then .error .validation
    else
      match findFriend db id with
      | none => .error .notFound
      | some row =>
        let db' : DB := { db with
          friends := db.friends.map (fun f => if f.fid == id then { f with name := name } else f) }
        let liters := row.total_liters
        let total_sek := calc_total_sek liters
        let paid := row.paid_sek
        .ok (db', ⟨id, name, round2 liters, round2 total_sek, round2 paid, round2 total_sek⟩)

/-- `delete_friend` (src/main.py:210-222): 404 on a missing row, then
`DELETE FROM friends WHERE id = ?`.  The schema declares
`FOREIGN KEY (friend_id) REFERENCES friends(id) ON DELETE CASCADE`
(src/main.py:87), but `connect()` (src/main.py:53-56) never issues
`PRAGMA foreign_keys = ON`, and SQLite keeps foreign-key enforcement — and
with it every `ON DELETE CASCADE` action — disabled by default on each new
connection.  The effective semantics is therefore that only the friend row is
removed; the friend's transaction rows stay behind. -/
def delete_friend (db : DB) (id : Nat) : Except Err (DB × Unit) :=
  match findFriend db id with
  | none => .error .notFound
  | some _ =>
    .ok ({ db with friends := db.friends.filter (fun f => f.fid != id) }, ())

/-- `add_liters` (src/main.py:224-255).  `body.liters` has passed the pydantic
check `Field(gt=0)` (`floatGtZero`); this ℚ handler covers the finite payloads
(the accepted non-finite `+∞` is handled by `floatGtZero` directly in the C5
theorems).  Logs type `"add_liters"` with the f-string's number elided. -/
def add_liters (db : DB) (id : Nat) (liters : ℚ) (t : Nat) : Except Err (DB × FriendView) :=
  if floatGtZero (.finite liters) = false then .error .validation
  else
    let liters_to_add := liters
    match findFriend db id with
    | none => .error .notFound
    | some row =>
      let new_liters := row.total_liters + liters_to_add
      let db1 : DB := { db with
        friends := db.friends.map
          (fun f => if f.fid == id then { f with total_liters := new_liters } else f) }
      let db2 := log_transaction db1 id "add_liters" liters_to_add "Lade till L" t
      let total_sek := calc_total_sek new_liters
      .ok (db2, ⟨id, row.name, round2 new_liters, round2 total_sek, round2 row.paid_sek,
                 round2 total_sek⟩)

/-- `pay_friend` (src/main.py:258-298).  `body.amount` has passed
`Field(gt=0)`.  Overpayment is allowed: `new_liters` may go negative and no
cap is applied.  Logs type `"payment"`. -/
def pay_friend (db : DB) (id : Nat) (amount : ℚ) (t : Nat) : Except Err (DB × FriendView) :=
  if floatGtZero (.finite amount) = false then .error .validation
  else
    let liters_to_subtract := amount / PRICE_PER_LITER
    match findFriend db id with
    | none => .error .notFound
    | some row =>
      let current_liters := row.total_liters
      let current_paid := row.paid_sek
      let new_liters := current_liters - liters_to_subtract
      let new_paid := current_paid + amount
      let db1 : DB := { db with
        friends := db.friends.map
          (fun f => if f.fid == id then
              { f with total_liters := new_liters, paid_sek := new_paid } else f) }
      let db2 := log_transaction db1 id "payment" amount "Betalade kr" t
      let total_sek := calc_total_sek new_liters
      .ok (db2, ⟨id, row.name, round2 new_liters, round2 total_sek, round2 new_paid,
                 round2 total_sek⟩)

/-- `reset_friend` (src/main.py:300-319): zeroes both columns, logs `"reset"`. -/
def reset_friend (db : DB) (id : Nat) (t : Nat) : Except Err (DB × FriendView) :=
  match findFriend db id with
  | none => .error .notFound
  | some row =>
    let db1 : DB := { db with
      friends := db.friends.map
        (fun f => if f.fid == id then { f with total_liters := 0, paid_sek := 0 } else f) }
    let db2 := log_transaction db1 id "reset" 0 "Nollstallde kontot" t
    .ok (db2, ⟨id, row.name, 0, 0, 0, 0⟩)

/-- `reset_all` (src/main.py:321-328): zeroes every row; writes no log entry. -/
def reset_all (db : DB) : Except Err (DB × Unit) :=
  .ok ({ db with
    friends := db.friends.map (fun f => { f with total_liters := 0, paid_sek := 0 }) }, ())

/-- One element of the list returned by `get_transactions`. -/
structure TxnView where
  tvid : Nat
  ttype : String
  amount : ℚ
  description : String
  createdAt : Nat
deriving Repr, DecidableEq

/-- The `ORDER BY created_at DESC` comparison: `a` may precede `b` when
`b.created_at ≤ a.created_at`. -/
def txnDescLe (a b : Txn) : Bool := decide (b.created_at ≤ a.created_at)

/-- `get_transactions` (src/main.py:330-362): 404 for an unknown id, else
`SELECT ... WHERE friend_id = ? ORDER BY created_at DESC LIMIT 50` with
`amount` rounded to 2 decimals in the view.  The query names no secondary sort
key, so rows with equal `created_at` come out in whatever order the sorter
produces from the table scan; this is modelled as a stable sort
(`List.mergeSort`) of the rows in rowid (insertion) order, which leaves
equal-timestamp rows in id-ascending order. -/
def get_transactions (db : DB) (id : Nat) : Except Err (List TxnView) :=
  match findFriend db id with
  | none => .error .notFound
  | some _ =>
    let rows :=
      ((db.transactions.filter (fun tx => tx.friend_id == id)).mergeSort txnDescLe).take 50
    .ok (rows.map (fun r => ⟨r.tid, r.ttype, round2 r.amount, r.description, r.created_at⟩))

/-! ### Commit-granularity model (for the atomicity claim)

sqlite3 in its default isolation mode opens an implicit transaction at the
first data-modifying statement and makes the pending changes durable at
`conn.commit()`; an execution that stops before a commit loses the pending
changes.  Each handler's write path is re-expressed as the list of primitive
statements it executes, in source order, with explicit commit points;
`runActions` over a prefix of that list yields the state that is durable if
execution stops right after that prefix. -/

inductive DbAction where
  | insertFriend (f : Friend)
  | insertTxn (tx : Txn)
  | updateLiters (fid : Nat) (v : ℚ)
  | updateLitersPaid (fid : Nat) (l p : ℚ)
  | commit
deriving Repr, DecidableEq

/-- Durable (`committed`) state next to the connection's pending view. -/
structure ConnState where
  committed : DB
  current : DB
deriving Repr, DecidableEq

def applyAction (s : ConnState) : DbAction → ConnState
  | .insertFriend f =>
    { s with current := { s.current with friends := s.current.friends ++ [f],
                                         nextFriendId := s.current.nextFriendId + 1 } }
  | .insertTxn tx =>
    { s with current := { s.current with transactions := s.current.transactions ++ [tx],
                                         nextTxnId := s.current.nextTxnId + 1 } }
  | .updateLiters fid v =>
    { s with current := { s.current with
        friends := s.current.friends.map
          (fun f => if f.fid == fid then { f with total_liters := v } else f) } }
  | .updateLitersPaid fid l p =>
    { s with current := { s.current with
        friends := s.current.friends.map
          (fun f => if f.fid == fid then { f with total_liters := l, paid_sek := p } else f) } }
  | .commit => { s with committed := s.current }

def runActions (s : ConnState) (acts : List DbAction) : ConnState :=
  acts.foldl applyAction s

/-- The write path of `create_friend` in source order: INSERT friend
(src/main.py:165-168), `conn.commit()` (169), then inside `log_transaction`
INSERT transaction (113-116) and `conn.commit()` (117).  The friend row is
committed on its own, before its log entry exists in the durable state. -/
def create_actions (name : String) (fid tid t : Nat) : List DbAction :=
  [.insertFriend ⟨fid, name, 0, 0, t⟩, .commit,
   .insertTxn ⟨tid, fid, "created", 0, "Skapade kontakt", t⟩, .commit]

/-- The write path of `add_liters` in source order: UPDATE (src/main.py:237),
then inside `log_transaction` INSERT (113-116) and `conn.commit()` (117), then
the handler's own `conn.commit()` (242).  The first commit makes the balance
update and the log row durable together. -/
def add_liters_actions (id : Nat) (new_liters liters_to_add : ℚ) (tid t : Nat) :
    List DbAction :=
  [.updateLiters id new_liters,
   .insertTxn ⟨tid, id, "add_liters", liters_to_add, "Lade till L", t⟩,
   .commit, .commit]

/-! ### Concrete stores used by the counterexample theorems -/

/-- One account, id 1, holding 2 liters. -/
def exFriend : Friend := ⟨1, "Ali", 2, 0, 0⟩

/-- Two transaction rows of account 1 with EQUAL timestamps, in insertion
order (ids 1 then 2). -/
def exTxn1 : Txn := ⟨1, 1, "created", 0, "Skapade kontakt", 5⟩

def exTxn2 : Txn := ⟨2, 1, "add_liters", 2, "Lade till L", 5⟩

def exDB : DB := ⟨[exFriend], [exTxn1, exTxn2], 2, 3⟩


unseal Rat.add Rat.mul Rat.sub Rat.inv Rat.ofScientific List.merge List.mergeSort

deriving instance DecidableEq for Except

/-! ### Rounding lemmas

`roundHalfEven` is characterised against `Int.floor`/`Int.fract`: with
`f = \u230aq\u230b` and `r = Int.fract q`, the integer guards in the definition are
exactly `r < 1/2`, `r > 1/2` and `r = 1/2`. -/

theorem floorQ_eq (q : ℚ) : q.num / (q.den : ℤ) = ⌊q⌋ := Rat.floor_def.symm

theorem den_cast_pos (q : ℚ) : (0:ℚ) < ((q.den : ℤ) : ℚ) := by
  have h := q.den_pos
  exact_mod_cast h

theorem fract_eq (q : ℚ) :
    Int.fract q = ((q.num % (q.den : ℤ) : ℤ) : ℚ) / ((q.den : ℤ) : ℚ) := by
  have hd0 : ((q.den : ℤ) : ℚ) ≠ 0 := ne_of_gt (den_cast_pos q)
  have hd0' : ((q.den : ℚ)) ≠ 0 := by
    have := q.den_nz
    exact_mod_cast this
  have hq : q * ((q.den : ℚ)) = (q.num : ℚ) := by
    have h2 : ((q.num : ℚ) / (q.den : ℚ)) * ((q.den : ℚ)) = (q.num : ℚ) :=
      div_mul_cancel₀ _ hd0'
    rw [Rat.num_div_den q] at h2
    exact h2
  rw [Int.fract, Rat.floor_def, Int.emod_def, eq_div_iff hd0]
  push_cast
  rw [sub_mul, hq]
  ring

theorem lt_half_iff (q : ℚ) :
    (2 * (q.num % (q.den : ℤ)) < (q.den : ℤ)) ↔ Int.fract q < 1/2 := by
  have hd : (0:ℚ) < ((q.den : ℤ) : ℚ) := den_cast_pos q
  rw [fract_eq, div_lt_iff₀ hd]
  constructor
  · intro h
    have h' : ((2 * (q.num % (q.den : ℤ)) : ℤ) : ℚ) < (((q.den : ℤ)) : ℚ) := by
      exact_mod_cast h
    push_cast at h' ⊢
    linarith
  · intro h
    have h' : ((2 * (q.num % (q.den : ℤ)) : ℤ) : ℚ) < (((q.den : ℤ)) : ℚ) := by
      push_cast at h ⊢
      linarith
    exact_mod_cast h'

theorem half_lt_iff (q : ℚ) :
    ((q.den : ℤ) < 2 * (q.num % (q.den : ℤ))) ↔ 1/2 < Int.fract q := by
  have hd : (0:ℚ) < ((q.den : ℤ) : ℚ) := den_cast_pos q
  rw [fract_eq, lt_div_iff₀ hd]
  constructor
  · intro h
    have h' : (((q.den : ℤ)) : ℚ) < ((2 * (q.num % (q.den : ℤ)) : ℤ) : ℚ) := by
      exact_mod_cast h
    push_cast at h' ⊢
    linarith
  · intro h
    have h' : (((q.den : ℤ)) : ℚ) < ((2 * (q.num % (q.den : ℤ)) : ℤ) : ℚ) := by
      push_cast at h ⊢
      linarith
    exact_mod_cast h'

theorem roundHalfEven_intCast (n : ℤ) : roundHalfEven (n : ℚ) = n := by
  simp [roundHalfEven, Rat.num_intCast, Rat.den_intCast]

theorem abs_sub_roundHalfEven_le (q : ℚ) : |q - (roundHalfEven q : ℚ)| ≤ 1/2 := by
  have h0 : 0 ≤ Int.fract q := Int.fract_nonneg q
  have h1 : Int.fract q < 1 := Int.fract_lt_one q
  have hfr : Int.fract q = q - (⌊q⌋ : ℚ) := rfl
  unfold roundHalfEven
  split_ifs with hA hB hC
  · rw [floorQ_eq, abs_le]
    have := (lt_half_iff q).mp hA
    constructor <;> linarith
  · rw [floorQ_eq]
    have := (half_lt_iff q).mp hB
    push_cast
    rw [abs_le]
    constructor <;> linarith
  · rw [floorQ_eq, abs_le]
    have htie : Int.fract q ≤ 1/2 := le_of_not_lt (fun h => hB ((half_lt_iff q).mpr h))
    constructor <;> linarith
  · rw [floorQ_eq]
    have htie : 1/2 ≤ Int.fract q := le_of_not_lt (fun h => hA ((lt_half_iff q).mpr h))
    push_cast
    rw [abs_le]
    constructor <;> linarith

theorem roundHalfEven_eq_zero {q : ℚ} (h : |q| < 1/2) : roundHalfEven q = 0 := by
  have habs := abs_lt.mp h
  have hup : ⌊q⌋ ≤ 0 := by
    have : ⌊q⌋ < 1 := Int.floor_lt.mpr (by push_cast; linarith [habs.2])
    omega
  have hlo : -1 ≤ ⌊q⌋ := Int.le_floor.mpr (by push_cast; linarith [habs.1])
  have hfr : Int.fract q = q - (⌊q⌋ : ℚ) := rfl
  unfold roundHalfEven
  split_ifs with hA hB hC
  · rw [floorQ_eq]
    have hlt := (lt_half_iff q).mp hA
    by_contra hne
    have hm1 : ⌊q⌋ = -1 := by omega
    rw [hm1] at hfr
    push_cast at hfr
    linarith [habs.1]
  · rw [floorQ_eq]
    have hgt := (half_lt_iff q).mp hB
    have hm1 : ⌊q⌋ = -1 := by
      by_contra hne
      have h0 : ⌊q⌋ = 0 := by omega
      rw [h0] at hfr
      push_cast at hfr
      linarith [habs.2]
    omega
  · rw [floorQ_eq]
    have htie : 1/2 ≤ Int.fract q := le_of_not_lt (fun hh => hA ((lt_half_iff q).mpr hh))
    have htie2 : Int.fract q ≤ 1/2 := le_of_not_lt (fun hh => hB ((half_lt_iff q).mpr hh))
    have heq : Int.fract q = 1/2 := le_antisymm htie2 htie
    rw [heq] at hfr
    have h01 : ⌊q⌋ = 0 ∨ ⌊q⌋ = -1 := by omega
    rcases h01 with h01 | h01 <;> rw [h01] at hfr <;> push_cast at hfr <;>
      [linarith [habs.2]; linarith [habs.1]]
  · rw [floorQ_eq]
    have htie : 1/2 ≤ Int.fract q := le_of_not_lt (fun hh => hA ((lt_half_iff q).mpr hh))
    have htie2 : Int.fract q ≤ 1/2 := le_of_not_lt (fun hh => hB ((half_lt_iff q).mpr hh))
    have heq : Int.fract q = 1/2 := le_antisymm htie2 htie
    rw [heq] at hfr
    have h01 : ⌊q⌋ = 0 ∨ ⌊q⌋ = -1 := by omega
    rcases h01 with h01 | h01 <;> rw [h01] at hfr <;> push_cast at hfr <;>
      [linarith [habs.2]; linarith [habs.1]]

theorem round2_round2 (q : ℚ) : round2 (round2 q) = round2 q := by
  unfold round2
  have h : ((roundHalfEven (q * 100) : ℚ) / 100 * 100) = (roundHalfEven (q * 100) : ℚ) := by
    field_simp
  rw [h, roundHalfEven_intCast]

theorem abs_sub_round2_le (q : ℚ) : |q - round2 q| ≤ 1/200 := by
  have h := abs_sub_roundHalfEven_le (q * 100)
  unfold round2
  rw [abs_le] at h ⊢
  constructor <;> [linarith [h.1, h.2]; linarith [h.1, h.2]]

theorem round2_eq_zero {q : ℚ} (h : |q| ≤ 1/2000) : round2 q = 0 := by
  have habs : |q * 100| < 1/2 := by
    rw [abs_mul]
    have h100 : |(100:ℚ)| = 100 := by norm_num
    rw [h100]
    have := abs_nonneg q
    nlinarith
  unfold round2
  rw [roundHalfEven_eq_zero habs]
  norm_num

/-! ### Store lemmas -/

theorem find?_fid {db : DB} {id : Nat} {row : Friend} (h : findFriend db id = some row) :
    row.fid = id := by
  have h2 := List.find?_some h
  simpa using h2

theorem find?_map_update {l : List Friend} {id : Nat} {row : Friend} (g : Friend → Friend)
    (hg : ∀ f, (g f).fid = f.fid)
    (h : l.find? (fun f => f.fid == id) = some row) :
    (l.map (fun f => if f.fid == id then g f else f)).find? (fun f => f.fid == id) =
      some (g row) := by
  induction l with
  | nil => simp at h
  | cons a l ih =>
    by_cases ha : a.fid = id
    · rw [List.find?_cons_of_pos _ (by simpa using ha)] at h
      cases h
      rw [List.map_cons, if_pos (by simpa using ha),
        List.find?_cons_of_pos _ (by simp [hg, ha])]
    · rw [List.find?_cons_of_neg _ (by simpa using ha)] at h
      rw [List.map_cons, if_neg (by simpa using ha),
        List.find?_cons_of_neg _ (by simpa using ha)]
      exact ih h

theorem pay_friend_eq (db : DB) (id : Nat) (amount : ℚ) (t : Nat) (row : Friend)
    (hpos : 0 < amount) (hfind : findFriend db id = some row) :
    pay_friend db id amount t = .ok
      ({ db with
          friends := db.friends.map (fun f => if f.fid == id then
            { f with total_liters := row.total_liters - amount / PRICE_PER_LITER,
                     paid_sek := row.paid_sek + amount } else f),
          transactions := db.transactions ++
            [⟨db.nextTxnId, id, "payment", amount, "Betalade kr", t⟩],
          nextTxnId := db.nextTxnId + 1 },
       ⟨id, row.name, round2 (row.total_liters - amount / PRICE_PER_LITER),
        round2 (calc_total_sek (row.total_liters - amount / PRICE_PER_LITER)),
        round2 (row.paid_sek + amount),
        round2 (calc_total_sek (row.total_liters - amount / PRICE_PER_LITER))⟩) := by
  have hgt : floatGtZero (.finite amount) = true := by
    simp [floatGtZero]
    exact hpos
  unfold pay_friend log_transaction
  rw [hgt, hfind]
  simp


theorem add_liters_eq (db : DB) (id : Nat) (liters : ℚ) (t : Nat) (row : Friend)
    (hpos : 0 < liters) (hfind : findFriend db id = some row) :
    add_liters db id liters t = .ok
      ({ db with
          friends := db.friends.map (fun f => if f.fid == id then
            { f with total_liters := row.total_liters + liters } else f),
          transactions := db.transactions ++
            [⟨db.nextTxnId, id, "add_liters", liters, "Lade till L", t⟩],
          nextTxnId := db.nextTxnId + 1 },
       ⟨id, row.name, round2 (row.total_liters + liters),
        round2 (calc_total_sek (row.total_liters + liters)),
        round2 row.paid_sek,
        round2 (calc_total_sek (row.total_liters + liters))⟩) := by
  have hgt : floatGtZero (.finite liters) = true := by
    simp [floatGtZero]
    exact hpos
  unfold add_liters log_transaction
  rw [hgt, hfind]
  simp

theorem add_liters_spec (db : DB) (id : Nat) (liters : ℚ) (t : Nat) (row : Friend)
    (hpos : 0 < liters) (hfind : findFriend db id = some row) :
    ∃ db' view, add_liters db id liters t = .ok (db', view) ∧
      findFriend db' id = some { row with total_liters := row.total_liters + liters } := by
  refine ⟨_, _, add_liters_eq db id liters t row hpos hfind, ?_⟩
  exact find?_map_update _ (fun f => rfl) hfind


/-! ### Claim theorems -/

/-- C1: for every existing Account and every amount > 0, Pay subtracts
`amount / pricePerLiter` (10.0) from the liter balance, adds `amount` to the
paid total, succeeds even when the balance goes negative (prepaid credit, no
cap), and returns the updated view whose remaining field is the signed
2-decimal rounding of the new liter balance converted to currency. -/
theorem pay_subtracts_and_allows_credit (db : DB) (id : Nat) (amount : ℚ) (t : Nat)
    (row : Friend) (hpos : 0 < amount) (hfind : findFriend db id = some row) :
    ∃ db' view, pay_friend db id amount t = .ok (db', view) ∧
      findFriend db' id = some { row with
        total_liters := row.total_liters - amount / PRICE_PER_LITER,
        paid_sek := row.paid_sek + amount } ∧
      view.totalLiters = round2 (row.total_liters - amount / PRICE_PER_LITER) ∧
      view.paidSek = round2 (row.paid_sek + amount) ∧
      view.remainingSek =
        round2 ((row.total_liters - amount / PRICE_PER_LITER) * PRICE_PER_LITER) := by
  refine ⟨_, _, pay_friend_eq db id amount t row hpos hfind, ?_, rfl, rfl, ?_⟩
  · exact find?_map_update _ (fun f => rfl) hfind
  · show round2 (calc_total_sek (row.total_liters - amount / PRICE_PER_LITER)) = _
    unfold calc_total_sek
    exact round2_round2 _

/-- C1 witness: on the store `exDB` (account 1 holds 2 L), paying 100 drives
the balance to -8 L and the remaining field to -80 (prepaid credit). -/
theorem pay_subtracts_and_allows_credit_witness :
    (0:ℚ) < 100 ∧ findFriend exDB 1 = some exFriend ∧
    (∃ db' view, pay_friend exDB 1 100 3 = .ok (db', view) ∧
      findFriend db' 1 = some { exFriend with
        total_liters := exFriend.total_liters - 100 / PRICE_PER_LITER,
        paid_sek := exFriend.paid_sek + 100 } ∧
      view.totalLiters = round2 (exFriend.total_liters - 100 / PRICE_PER_LITER) ∧
      view.paidSek = round2 (exFriend.paid_sek + 100) ∧
      view.remainingSek =
        round2 ((exFriend.total_liters - 100 / PRICE_PER_LITER) * PRICE_PER_LITER)) ∧
    round2 ((exFriend.total_liters - 100 / PRICE_PER_LITER) * PRICE_PER_LITER) < 0 :=
  ⟨by norm_num, by decide,
   pay_subtracts_and_allows_credit exDB 1 100 3 exFriend (by norm_num) (by decide),
   by decide⟩

/-- C2: adding L > 0 liters and then paying the exact currency equivalent of
the resulting balance (`round(balance * 10.0, 2)`) leaves the stored liter
balance at 0 within 2-decimal rounding: it rounds to 0.00 and differs from 0
by at most 1/2000. -/
theorem add_then_pay_exact_zeroes_balance (db : DB) (id : Nat) (L : ℚ) (t1 t2 : Nat)
    (row : Friend) (hL : 0 < L) (hfind : findFriend db id = some row)
    (hamt : 0 < calc_total_sek (row.total_liters + L)) :
    ∃ db1 v1 db2 v2 row2,
      add_liters db id L t1 = .ok (db1, v1) ∧
      pay_friend db1 id (calc_total_sek (row.total_liters + L)) t2 = .ok (db2, v2) ∧
      findFriend db2 id = some row2 ∧
      round2 row2.total_liters = 0 ∧ |row2.total_liters| ≤ 1/2000 := by
  obtain ⟨db1, v1, h1, hf1⟩ := add_liters_spec db id L t1 row hL hfind
  have h2 := pay_friend_eq db1 id (calc_total_sek (row.total_liters + L)) t2
    { row with total_liters := row.total_liters + L } hamt hf1
  refine ⟨db1, v1, _, _, _, h1, h2, find?_map_update _ (fun f => rfl) hf1, ?_, ?_⟩
  all_goals
    have habs := abs_sub_round2_le ((row.total_liters + L) * 10)
    have hx : (row.total_liters + L) -
        calc_total_sek (row.total_liters + L) / PRICE_PER_LITER =
        ((row.total_liters + L) * 10 - round2 ((row.total_liters + L) * 10)) / 10 := by
      unfold calc_total_sek PRICE_PER_LITER
      ring
  · refine round2_eq_zero ?_
    show |(row.total_liters + L) - calc_total_sek (row.total_liters + L) / PRICE_PER_LITER| ≤ 1/2000
    rw [hx, abs_le] at *
    rcases habs with ⟨ha, hb⟩
    constructor <;> [linarith; linarith]
  · show |(row.total_liters + L) - calc_total_sek (row.total_liters + L) / PRICE_PER_LITER| ≤ 1/2000
    rw [hx, abs_le] at *
    rcases habs with ⟨ha, hb⟩
    constructor <;> [linarith; linarith]

/-- C2 witness: on `exDB` (account 1 holds 2 L), adding 1 L and then paying
`calc_total_sek 3 = 30` leaves the stored balance exactly at a value that
rounds to 0. -/
theorem add_then_pay_exact_zeroes_balance_witness :
    (0:ℚ) < 1 ∧ findFriend exDB 1 = some exFriend ∧
    0 < calc_total_sek (exFriend.total_liters + 1) ∧
    (∃ db1 v1 db2 v2 row2,
      add_liters exDB 1 1 4 = .ok (db1, v1) ∧
      pay_friend db1 1 (calc_total_sek (exFriend.total_liters + 1)) 5 = .ok (db2, v2) ∧
      findFriend db2 1 = some row2 ∧
      round2 row2.total_liters = 0 ∧ |row2.total_liters| ≤ 1/2000) :=
  ⟨by norm_num, by decide, by decide,
   add_then_pay_exact_zeroes_balance exDB 1 1 4 5 exFriend (by norm_num) (by decide)
     (by decide)⟩


/-- C3 (code evidence): deleting account 1 from `exDB` removes the friend row
but leaves both of the account's transaction rows behind.  `connect()`
(src/main.py:53-56) never executes `PRAGMA foreign_keys = ON`, so SQLite does
not enforce the schema's `ON DELETE CASCADE` and the claimed cascade deletion
does not happen: the orphan rows still reference friend_id 1. -/
theorem delete_leaves_orphan_transactions :
    delete_friend exDB 1 = .ok (⟨[], [exTxn1, exTxn2], 2, 3⟩, ()) ∧
    exTxn1.friend_id = 1 ∧ exTxn2.friend_id = 1 := by decide

/-- C7 (code evidence): after the first two statements of `create_friend`'s
write path (the friend INSERT, src/main.py:165-168, and its own
`conn.commit()`, line 169) the durable state holds the Account row but not its
"created" log entry: the two writes are not committed together, so an
execution that stops between the two commits leaves exactly that state.  (The
full four-statement run commits both, as the second conjunct shows.) -/
theorem create_commits_account_row_without_log :
    (runActions ⟨emptyDB, emptyDB⟩ ((create_actions "Ali" 1 1 0).take 2)).committed =
      ⟨[⟨1, "Ali", 0, 0, 0⟩], [], 2, 1⟩ ∧
    (runActions ⟨emptyDB, emptyDB⟩ (create_actions "Ali" 1 1 0)).committed =
      ⟨[⟨1, "Ali", 0, 0, 0⟩], [⟨1, 1, "created", 0, "Skapade kontakt", 0⟩], 2, 2⟩ := by
  decide

/-- C10: there are a configured secret and a caller password differing from it
only by surrounding whitespace for which login succeeds (it strips the
supplied password before comparing) while the protected-endpoint header check
rejects the same value as unauthorized (it compares exactly). -/
theorem login_strips_but_header_check_does_not :
    ∃ secret pwd : String, secret ≠ "" ∧ pwd ≠ secret ∧ stripStr pwd = secret ∧
      login (some secret) (some pwd) = .ok () ∧
      require_password (some secret) (some pwd) = some .unauthorized :=
  ⟨"pw", " pw ", by decide, by decide, by decide, by decide⟩

/-- C6: a protected request with no configured secret (unset, or empty and
hence falsy) fails with the distinct misconfiguration error; one with a wrong
or missing header secret fails unauthorized; in both cases the handler never
runs and the store comes back unchanged. -/
theorem auth_rejects_before_store_access {α : Type} (appPassword header : Option String)
    (handler : DB → Except Err (DB × α)) (db : DB) :
    ((appPassword = none ∨ appPassword = some "") →
      runProtected appPassword header handler db = (db, .error .misconfigured)) ∧
    (∀ s : String, appPassword = some s → s ≠ "" → header ≠ some s →
      runProtected appPassword header handler db = (db, .error .unauthorized)) := by
  constructor
  · intro h
    unfold runProtected require_password
    rw [if_pos h]
  · intro s hs hne hhdr
    subst hs
    have h1 : ¬(some s = none ∨ some s = some "") := by
      rintro (h | h)
      · exact Option.noConfusion h
      · apply hne
        injection h
    unfold runProtected require_password
    rw [if_neg h1, if_pos hhdr]

/-- C6 witness: with no secret configured the reset-all endpoint fails 500 and
leaves `exDB` unchanged; with secret "pw" and a padded header value it fails
401 and leaves `exDB` unchanged. -/
theorem auth_rejects_before_store_access_witness :
    runProtected none (some "pw") (fun d => reset_all d) exDB =
      (exDB, .error .misconfigured) ∧
    runProtected (some "pw") (some " pw ") (fun d => reset_all d) exDB =
      (exDB, .error .unauthorized) :=
  ⟨(auth_rejects_before_store_access none (some "pw") (fun d => reset_all d) exDB).1
      (Or.inl rfl),
   (auth_rejects_before_store_access (some "pw") (some " pw ") (fun d => reset_all d) exDB).2
      "pw" rfl (by decide) (by decide)⟩

/-- C5 counterexample: the IEEE value +Infinity is non-finite yet passes the
pydantic `Field(gt=0)` validation (`inf > 0` is true), so it is not rejected
with a validation error as the claim states for all non-finite inputs. -/
theorem validation_accepts_infinity : floatGtZero FloatVal.inf = true := rfl

/-- C5 (amended): the gt-0 validation rejects exactly NaN, -Infinity and the
finite values ≤ 0 — +Infinity slips through — and any rejected add-fuel or
pay request fails with a validation error, producing no updated store. -/
theorem validation_rejects_nonpositive :
    (∀ v : FloatVal, floatGtZero v = false ↔
      (v = .nan ∨ v = .neginf ∨ ∃ q : ℚ, v = .finite q ∧ q ≤ 0)) ∧
    (∀ (db : DB) (id : Nat) (q : ℚ) (t : Nat), q ≤ 0 →
      add_liters db id q t = .error .validation) ∧
    (∀ (db : DB) (id : Nat) (q : ℚ) (t : Nat), q ≤ 0 →
      pay_friend db id q t = .error .validation) := by
  refine ⟨?_, ?_, ?_⟩
  · intro v
    cases v with
    | finite q => simp [floatGtZero, not_lt]
    | inf => simp [floatGtZero]
    | neginf => simp [floatGtZero]
    | nan => simp [floatGtZero]
  · intro db id q t hq
    have hgt : floatGtZero (.finite q) = false := by
      simp [floatGtZero, not_lt]
      exact hq
    unfold add_liters
    rw [if_pos hgt]
  · intro db id q t hq
    have hgt : floatGtZero (.finite q) = false := by
      simp [floatGtZero, not_lt]
      exact hq
    unfold pay_friend
    rw [if_pos hgt]

/-- C5 witness: zero liters and a negative payment are rejected with a
validation error on `exDB`. -/
theorem validation_rejects_nonpositive_witness :
    floatGtZero (FloatVal.finite 0) = false ∧
    add_liters exDB 1 0 9 = .error .validation ∧
    pay_friend exDB 1 (-5) 9 = .error .validation :=
  ⟨(validation_rejects_nonpositive.1 (FloatVal.finite 0)).mpr
      (Or.inr (Or.inr ⟨0, rfl, le_refl 0⟩)),
   validation_rejects_nonpositive.2.1 exDB 1 0 9 le_rfl,
   validation_rejects_nonpositive.2.2 exDB 1 (-5) 9 (by norm_num)⟩


/-- C4 counterexample: account 1 in `exDB` has two transactions with EQUAL
timestamps, inserted as id 1 then id 2.  The history endpoint returns them in
id-ASCENDING order (1 before 2): the query has no `id DESC` secondary sort
key, so equal-timestamp rows do not come back in the id-descending order the
claim states. -/
theorem get_transactions_tie_order_ascending :
    get_transactions exDB 1 = .ok
      [⟨1, "created", 0, "Skapade kontakt", 5⟩,
       ⟨2, "add_liters", 2, "Lade till L", 5⟩] ∧
    exTxn1.created_at = exTxn2.created_at ∧ exTxn1.tid < exTxn2.tid := by decide

/-- C4 (amended): for an unknown id the history endpoint fails not-found; on
success it returns at most 50 entries, ordered by creation time descending
(the code fixes no tie order for equal timestamps — the modelled stable sort
leaves ties in insertion order, id ascending), each entry being a stored
transaction of that account with its amount rounded to 2 decimals. -/
theorem get_transactions_spec (db : DB) (id : Nat) :
    (findFriend db id = none → get_transactions db id = .error .notFound) ∧
    (∀ views, get_transactions db id = .ok views →
      views.length ≤ 50 ∧
      views.Pairwise (fun a b => b.createdAt ≤ a.createdAt) ∧
      (∀ v ∈ views, ∃ tx ∈ db.transactions, tx.friend_id = id ∧
        v = ⟨tx.tid, tx.ttype, round2 tx.amount, tx.description, tx.created_at⟩)) := by
  constructor
  · intro h
    unfold get_transactions
    rw [h]
  · intro views hv
    unfold get_transactions at hv
    cases hfind : findFriend db id with
    | none =>
      rw [hfind] at hv
      exact absurd hv (by simp)
    | some row =>
      rw [hfind] at hv
      simp only [Except.ok.injEq] at hv
      subst hv
      have htrans : ∀ (a b c : Txn), txnDescLe a b → txnDescLe b c → txnDescLe a c := by
        intro a b c hab hbc
        simp only [txnDescLe, decide_eq_true_eq] at *
        omega
      have htotal : ∀ (a b : Txn), txnDescLe a b || txnDescLe b a := by
        intro a b
        simp only [txnDescLe, Bool.or_eq_true, decide_eq_true_eq]
        omega
      refine ⟨?_, ?_, ?_⟩
      · rw [List.length_map, List.length_take]
        exact min_le_left _ _
      · have hs := List.sorted_mergeSort htrans htotal
          (db.transactions.filter (fun tx => tx.friend_id == id))
        have hs2 : (((db.transactions.filter (fun tx => tx.friend_id == id)).mergeSort
            txnDescLe).take 50).Pairwise (fun a b => txnDescLe a b) :=
          List.Pairwise.sublist (List.take_sublist _ _) hs
        rw [List.pairwise_map]
        refine hs2.imp ?_
        intro a b hab
        simpa [txnDescLe] using hab
      · intro v hv
        rw [List.mem_map] at hv
        obtain ⟨r, hr, rfl⟩ := hv
        have hr2 : r ∈ (db.transactions.filter
            (fun tx => tx.friend_id == id)).mergeSort txnDescLe :=
          List.take_subset _ _ hr
        rw [List.mem_mergeSort] at hr2
        rw [List.mem_filter] at hr2
        exact ⟨r, hr2.1, by simpa using hr2.2, rfl⟩

/-- C4 witness: an unknown account id fails not-found, and a successful query
returns at most 50 entries. -/
theorem get_transactions_spec_witness :
    get_transactions exDB 999 = .error .notFound ∧
    ([(⟨1, "created", 0, "Skapade kontakt", 5⟩ : TxnView),
      ⟨2, "add_liters", 2, "Lade till L", 5⟩].length ≤ 50) :=
  ⟨(get_transactions_spec exDB 999).1 (by decide),
   ((get_transactions_spec exDB 1).2 _ (by decide)).1⟩


theorem forall₂_map_self {α : Type} (g : α → α) (R : α → α → Prop) :
    ∀ l : List α, (∀ x ∈ l, R x (g x)) → List.Forall₂ R l (l.map g)
  | [], _ => List.Forall₂.nil
  | a :: l, h =>
    List.Forall₂.cons (h a (by simp))
      (forall₂_map_self g R l (fun x hx => h x (by simp [hx])))

/-- C8: renaming an existing Account with a name that trims to length ≥ 2
updates the name only — every other friend column, every other row, the
transaction log and the id counters are unchanged — while a name trimming to
fewer than 2 characters is rejected with a validation error (no store shown,
hence no change). -/
theorem rename_updates_name_only (db : DB) (id : Nat) (rawName : String) :
    (∀ row, 2 ≤ rawName.length → 2 ≤ (clean_name rawName).length →
      findFriend db id = some row →
      ∃ db' view, rename_friend db id rawName = .ok (db', view) ∧
        db'.transactions = db.transactions ∧
        db'.nextFriendId = db.nextFriendId ∧ db'.nextTxnId = db.nextTxnId ∧
        List.Forall₂ (fun f f' : Friend =>
          f'.fid = f.fid ∧ f'.total_liters = f.total_liters ∧
          f'.paid_sek = f.paid_sek ∧ f'.created_at = f.created_at ∧
          (f.fid = id → f'.name = clean_name rawName) ∧
          (f.fid ≠ id → f' = f)) db.friends db'.friends ∧
        view.name = clean_name rawName) ∧
    ((clean_name rawName).length < 2 →
      rename_friend db id rawName = .error .validation) := by
  constructor
  · intro row hraw htrim hfind
    have h1 : ¬ rawName.length < 2 := by omega
    have h2 : ¬ (clean_name rawName).length < 2 := by omega
    have heq : rename_friend db id rawName = .ok
        ({ db with friends := db.friends.map (fun f =>
            if f.fid == id then { f with name := clean_name rawName } else f) },
         ⟨id, clean_name rawName, round2 row.total_liters,
          round2 (calc_total_sek row.total_liters), round2 row.paid_sek,
          round2 (calc_total_sek row.total_liters)⟩) := by
      unfold rename_friend
      rw [if_neg h1, if_neg h2, hfind]
    refine ⟨_, _, heq, rfl, rfl, rfl, ?_, rfl⟩
    refine forall₂_map_self _ _ _ ?_
    intro f hf
    by_cases h : f.fid = id
    · rw [if_pos (by simpa using h)]
      exact ⟨rfl, rfl, rfl, rfl, fun _ => rfl, fun hne => absurd h hne⟩
    · rw [if_neg (by simpa using h)]
      exact ⟨rfl, rfl, rfl, rfl, fun he => absurd he h, fun _ => rfl⟩
  · intro htrim
    by_cases hraw : rawName.length < 2
    · unfold rename_friend
      rw [if_pos hraw]
    · unfold rename_friend
      rw [if_neg hraw, if_pos htrim]

/-- C8 witness: renaming account 1 of `exDB` to "Bo" succeeds and changes the
name only, while the raw name "x" (trimming to length 1) is rejected. -/
theorem rename_updates_name_only_witness :
    (2 ≤ ("Bo" : String).length) ∧ (2 ≤ (clean_name "Bo").length) ∧
    findFriend exDB 1 = some exFriend ∧
    (∃ db' view, rename_friend exDB 1 "Bo" = .ok (db', view) ∧
      db'.transactions = exDB.transactions ∧
      db'.nextFriendId = exDB.nextFriendId ∧ db'.nextTxnId = exDB.nextTxnId ∧
      List.Forall₂ (fun f f' : Friend =>
        f'.fid = f.fid ∧ f'.total_liters = f.total_liters ∧
        f'.paid_sek = f.paid_sek ∧ f'.created_at = f.created_at ∧
        (f.fid = 1 → f'.name = clean_name "Bo") ∧
        (f.fid ≠ 1 → f' = f)) exDB.friends db'.friends ∧
      view.name = clean_name "Bo") ∧
    ((clean_name "x").length < 2 ∧ rename_friend exDB 1 "x" = .error .validation) :=
  ⟨by decide, by decide, by decide,
   (rename_updates_name_only exDB 1 "Bo").1 exFriend (by decide) (by decide) (by decide),
   by decide, (rename_updates_name_only exDB 1 "x").2 (by decide)⟩


/-- C9 counterexample: a successful Add fuel on `exDB` logs a transaction of
kind "add_liters" — not "fuel-added" as the claim states (and nothing in the
code ever writes a "fuel-added" or "reset-all" entry). -/
theorem add_fuel_logs_add_liters_kind :
    add_liters exDB 1 2 7 = .ok
      (⟨[⟨1, "Ali", 4, 0, 0⟩],
        [exTxn1, exTxn2, ⟨3, 1, "add_liters", 2, "Lade till L", 7⟩], 2, 4⟩,
       ⟨1, "Ali", 4, 40, 0, 40⟩) ∧
    "add_liters" ≠ "fuel-added" := by decide

/-- C9 (amended): every Transaction the code writes has kind drawn from
{created, add_liters, payment, reset}: create appends exactly one "created"
entry, add fuel one "add_liters" entry whose amount is the liters added, pay
one "payment" entry whose amount is the payment, reset one "reset" entry, and
reset-all, rename and delete write no log entry at all. -/
theorem log_kinds_spec :
    (∀ db raw t db' v, create_friend db raw t = .ok (db', v) →
      db'.transactions = db.transactions ++
        [⟨db.nextTxnId, db.nextFriendId, "created", 0, "Skapade kontakt", t⟩]) ∧
    (∀ db id q t db' v, add_liters db id q t = .ok (db', v) →
      db'.transactions = db.transactions ++
        [⟨db.nextTxnId, id, "add_liters", q, "Lade till L", t⟩]) ∧
    (∀ db id q t db' v, pay_friend db id q t = .ok (db', v) →
      db'.transactions = db.transactions ++
        [⟨db.nextTxnId, id, "payment", q, "Betalade kr", t⟩]) ∧
    (∀ db id t db' v, reset_friend db id t = .ok (db', v) →
      db'.transactions = db.transactions ++
        [⟨db.nextTxnId, id, "reset", 0, "Nollstallde kontot", t⟩]) ∧
    (∀ db db' u, reset_all db = .ok (db', u) → db'.transactions = db.transactions) ∧
    (∀ db id raw db' v, rename_friend db id raw = .ok (db', v) →
      db'.transactions = db.transactions) ∧
    (∀ db id db' u, delete_friend db id = .ok (db', u) →
      db'.transactions = db.transactions) := by
  refine ⟨?_, ?_, ?_, ?_, ?_, ?_, ?_⟩
  · intro db raw t db' v h
    unfold create_friend log_transaction at h
    by_cases h1 : raw.length < 2
    · rw [if_pos h1] at h
      exact absurd h (by simp)
    · rw [if_neg h1] at h
      by_cases h2 : (clean_name raw).length < 2
      · rw [if_pos h2] at h
        exact absurd h (by simp)
      · rw [if_neg h2] at h
        simp only [Except.ok.injEq, Prod.mk.injEq] at h
        rw [← h.1]
  · intro db id q t db' v h
    unfold add_liters log_transaction at h
    by_cases h1 : floatGtZero (.finite q) = false
    · rw [if_pos h1] at h
      exact absurd h (by simp)
    · rw [if_neg h1] at h
      cases hf : findFriend db id with
      | none =>
        rw [hf] at h
        exact absurd h (by simp)
      | some row =>
        rw [hf] at h
        simp only [Except.ok.injEq, Prod.mk.injEq] at h
        rw [← h.1]
  · intro db id q t db' v h
    unfold pay_friend log_transaction at h
    by_cases h1 : floatGtZero (.finite q) = false
    · rw [if_pos h1] at h
      exact absurd h (by simp)
    · rw [if_neg h1] at h
      cases hf : findFriend db id with
      | none =>
        rw [hf] at h
        exact absurd h (by simp)
      | some row =>
        rw [hf] at h
        simp only [Except.ok.injEq, Prod.mk.injEq] at h
        rw [← h.1]
  · intro db id t db' v h
    unfold reset_friend log_transaction at h
    cases hf : findFriend db id with
    | none =>
      rw [hf] at h
      exact absurd h (by simp)
    | some row =>
      rw [hf] at h
      simp only [Except.ok.injEq, Prod.mk.injEq] at h
      rw [← h.1]
  · intro db db' u h
    unfold reset_all at h
    simp only [Except.ok.injEq, Prod.mk.injEq] at h
    rw [← h.1]
  · intro db id raw db' v h
    unfold rename_friend at h
    by_cases h1 : raw.length < 2
    · rw [if_pos h1] at h
      exact absurd h (by simp)
    · rw [if_neg h1] at h
      by_cases h2 : (clean_name raw).length < 2
      · rw [if_pos h2] at h
        exact absurd h (by simp)
      · rw [if_neg h2] at h
        cases hf : findFriend db id with
        | none =>
          rw [hf] at h
          exact absurd h (by simp)
        | some row =>
          rw [hf] at h
          simp only [Except.ok.injEq, Prod.mk.injEq] at h
          rw [← h.1]
  · intro db id db' u h
    unfold delete_friend at h
    cases hf : findFriend db id with
    | none =>
      rw [hf] at h
      exact absurd h (by simp)
    | some row =>
      rw [hf] at h
      simp only [Except.ok.injEq, Prod.mk.injEq] at h
      rw [← h.1]

/-- C9 witness: the add-fuel conjunct applied to `exDB`: the appended log
entry has kind "add_liters" and amount 2 (the liters added). -/
theorem log_kinds_spec_witness :
    (⟨[⟨1, "Ali", 4, 0, 0⟩],
      [exTxn1, exTxn2, ⟨3, 1, "add_liters", 2, "Lade till L", 7⟩], 2, 4⟩ : DB).transactions =
      exDB.transactions ++ [⟨exDB.nextTxnId, 1, "add_liters", 2, "Lade till L", 7⟩] :=
  log_kinds_spec.2.1 exDB 1 2 7 _ ⟨1, "Ali", 4, 40, 0, 40⟩ (by decide)


end FuelFriends
